import Mathlib

/-!
Verification of a Conway's Game of Life simulator (single Rust source file).

The embedding models the grid as `List (List Bool)` (row-major, `grid[y][x]`),
pixel buffers as `List Nat` (one byte per entry), and fallible indexed writes
(Rust panics on out-of-range indexing) as `Option`-returning functions.
Randomness (`rand::thread_rng`) is modelled by an explicit oracle of draws.
-/

namespace Cgol

/-- Number of pixels along each side of a cell (`PIXELS_PER_CELL` in the source). -/
def PIXELS_PER_CELL : Nat := 16

/-- Window width in pixels (`WINDOW_WIDTH`). -/
def WINDOW_WIDTH : Nat := 800

/-- Window height in pixels (`WINDOW_HEIGHT`). -/
def WINDOW_HEIGHT : Nat := 640

/-- A color with red, green and blue components (`struct Rgb(u8, u8, u8)`).
Channels are bytes; we model them as `Nat` (no arithmetic is ever done on them). -/
structure Rgb where
  r : Nat
  g : Nat
  b : Nat
deriving DecidableEq, Repr

/-- Plain black (`Rgb::BLACK`). -/
def Rgb.BLACK : Rgb := ⟨0, 0, 0⟩

/-- Plain white (`Rgb::WHITE`). -/
def Rgb.WHITE : Rgb := ⟨255, 255, 255⟩

/-- A location in grid space (`struct GridCoords`). -/
structure GridCoords where
  x : Nat
  y : Nat

/-- A location in pixel space (`struct PixelCoords`). -/
structure PixelCoords where
  x : Nat
  y : Nat

/-- Pixel coordinates at the origin of the screen (`PixelCoords::origin`). -/
def PixelCoords.origin : PixelCoords := ⟨0, 0⟩

/-- The grid: row-major list of rows of alive/dead booleans; `grid[y][x]`. -/
abbrev Grid := List (List Bool)

/-- Read a cell; `grid[y][x]` in the source (which panics out of range; all
verified accesses are in range, where `getD` agrees with the panicking index). -/
def cell_at (grid : Grid) (x y : Nat) : Bool :=
  (grid.getD y []).getD x false

/-- Width of the grid as the source computes it: `grid[0].len()`. -/
def grid_width (grid : Grid) : Nat := (grid.getD 0 []).length

/-- Height of the grid as the source computes it: `grid.len()`. -/
def grid_height (grid : Grid) : Nat := grid.length

/-- The eight neighbor offsets (`OFFSETS` in `alive_neighbors`). -/
def OFFSETS : List (Int × Int) :=
  [(-1, -1), (0, -1), (1, -1), (1, 0), (1, 1), (0, 1), (-1, 1), (-1, 0)]

/-- Model of `usize::try_from(i: i32)`: succeeds exactly on non-negative
values, returning the same number. -/
def usize_try_from (i : Int) : Option Nat :=
  match i with
  | .ofNat n => some n
  | .negSucc _ => none

/-- One iteration of the `for offset in OFFSETS` loop body of `alive_neighbors`:
`usize::try_from(x + offset.0)` (fails exactly on negatives),
then the `x >= grid_width || y >= grid_height` skip, then the `grid[y][x]` read. -/
def visit_offset (grid : Grid) (gw gh : Nat) (x y : Int) (alive : Nat)
    (o : Int × Int) : Nat :=
  match usize_try_from (x + o.1), usize_try_from (y + o.2) with
  | some ux, some uy =>
    if ux ≥ gw ∨ uy ≥ gh then alive
    else if (grid.getD uy []).getD ux false then alive + 1 else alive
  | _, _ => alive

/-- Number of alive cells among a cell's up-to-eight neighbors
(`fn alive_neighbors`). -/
def alive_neighbors (grid : Grid) (x y : Int) : Nat :=
  OFFSETS.foldl (visit_offset grid (grid_width grid) (grid_height grid) x y) 0

/-- The state of one output cell of the transition, from the source's
`match (alive, alive_neighbors) { (true, 2..=3) | (false, 3) => true, _ => false-ish }`
(the catch-all leaves the freshly allocated `false`). -/
def next_cell (alive : Bool) (n : Nat) : Bool :=
  (alive && (decide (2 ≤ n) && decide (n ≤ 3))) || (!alive && decide (n = 3))

/-- The generation transition of the tick loop in `main`: a fresh grid of the
same dimensions whose cell `(x, y)` is `next_cell` of the old cell and its
neighbor count.  The source writes each `next_grid[y][x]` exactly once,
reading only the old `grid`, so the loop is this pure per-cell map. -/
def next_generation (grid : Grid) : Grid :=
  (List.range (grid_height grid)).map fun y =>
    (List.range (grid_width grid)).map fun x =>
      next_cell (cell_at grid x y) (alive_neighbors grid (x : Int) (y : Int))

/-- The `alive_count` accumulated by the tick loop in `main`: it increments
once per alive cell of the *current* grid while the double loop runs. -/
def tick_alive_count (grid : Grid) : Nat :=
  (List.range (grid_height grid)).foldl (fun acc y =>
    (List.range (grid_width grid)).foldl (fun acc x =>
      if cell_at grid x y then acc + 1 else acc) acc) 0

/-- Total number of alive cells of a grid (the spec's `countAliveTotal`). -/
def count_alive_total (grid : Grid) : Nat :=
  (grid.map fun r => r.countP fun c => c).sum

/-- The decision made at the end of a tick in `main`: if `alive_count == 0`
the process exits with code 0 (`none`); otherwise the grid is replaced by the
next generation (`some`). -/
def loop_step (grid : Grid) : Option Grid :=
  if tick_alive_count grid = 0 then none else some (next_generation grid)

/-- A grid is rectangular when every row has the width the source derives
from row 0 (the program's shape invariant). -/
def rectangular (grid : Grid) : Prop :=
  ∀ r ∈ grid, r.length = grid_width grid

instance (grid : Grid) : Decidable (rectangular grid) := by
  unfold rectangular; infer_instance

/-- The test `alive_neighbors` performs before reading `grid[y][x]` for an
offset `o`: the shifted coordinates convert to `usize` and pass the
width/height check. -/
def candidate_ok (gw gh : Nat) (x y : Int) (o : Int × Int) : Prop :=
  0 ≤ x + o.1 ∧ 0 ≤ y + o.2 ∧ (x + o.1).toNat < gw ∧ (y + o.2).toNat < gh

instance (gw gh : Nat) (x y : Int) (o : Int × Int) :
    Decidable (candidate_ok gw gh x y o) := by
  unfold candidate_ok; infer_instance

/-- A candidate neighbor that passes the bounds checks and is alive. -/
def neighbor_live (grid : Grid) (gw gh : Nat) (x y : Int) (o : Int × Int) : Prop :=
  candidate_ok gw gh x y o ∧
    (grid.getD (y + o.2).toNat []).getD (x + o.1).toNat false = true

instance (grid : Grid) (gw gh : Nat) (x y : Int) (o : Int × Int) :
    Decidable (neighbor_live grid gw gh x y o) := by
  unfold neighbor_live; infer_instance

/-- Number of offsets whose candidate coordinates survive the bounds checks. -/
def candidate_count (gw gh : Nat) (x y : Int) : Nat :=
  OFFSETS.countP fun o => decide (candidate_ok gw gh x y o)

theorem int_shape (i : Int) :
    (∃ m : Nat, i = Int.ofNat m) ∨ (∃ m : Nat, i = Int.negSucc m) := by
  cases i with
  | ofNat m => exact .inl ⟨m, rfl⟩
  | negSucc m => exact .inr ⟨m, rfl⟩

theorem visit_offset_eq (grid : Grid) (gw gh : Nat) (x y : Int) (a : Nat)
    (o : Int × Int) :
    visit_offset grid gw gh x y a o
      = a + if neighbor_live grid gw gh x y o then 1 else 0 := by
  unfold visit_offset neighbor_live candidate_ok
  rcases int_shape (x + o.1) with ⟨m, hm⟩ | ⟨m, hm⟩ <;>
    rcases int_shape (y + o.2) with ⟨k, hk⟩ | ⟨k, hk⟩ <;>
      simp only [hm, hk, usize_try_from]
  · split_ifs with h1 h2 h3 h3 <;> simp_all <;> omega
  · have h : ¬ (0 ≤ Int.negSucc k) := (Int.negSucc_lt_zero k).not_le
    simp [h]
  · have h : ¬ (0 ≤ Int.negSucc m) := (Int.negSucc_lt_zero m).not_le
    simp [h]
  · have h : ¬ (0 ≤ Int.negSucc m) := (Int.negSucc_lt_zero m).not_le
    simp [h]

theorem foldl_count (p : Int × Int → Prop) [DecidablePred p]
    (f : Nat → Int × Int → Nat)
    (hf : ∀ a o, f a o = a + if p o then 1 else 0) :
    ∀ (l : List (Int × Int)) (n : Nat),
      l.foldl f n = n + l.countP fun o => decide (p o) := by
  intro l
  induction l with
  | nil => intro n; simp
  | cons a t ih =>
    intro n
    simp only [List.foldl_cons, List.countP_cons, hf, ih]
    by_cases h : p a <;> simp [h] <;> omega

/-- `alive_neighbors` counts exactly the offsets whose candidate is in bounds
and alive. -/
theorem alive_neighbors_eq_countP (grid : Grid) (x y : Int) :
    alive_neighbors grid x y
      = OFFSETS.countP fun o =>
          decide (neighbor_live grid (grid_width grid) (grid_height grid) x y o) := by
  unfold alive_neighbors
  rw [foldl_count (neighbor_live grid (grid_width grid) (grid_height grid) x y)
    _ (visit_offset_eq grid _ _ x y)]
  simp

theorem cell_at_next_generation (grid : Grid) {x y : Nat}
    (hx : x < grid_width grid) (hy : y < grid_height grid) :
    cell_at (next_generation grid) x y
      = next_cell (cell_at grid x y) (alive_neighbors grid (x : Int) (y : Int)) := by
  simp [next_generation, cell_at, List.getD_eq_getElem?_getD, List.getElem?_map,
    List.getElem?_range, hx, hy]

/-- C1: the next generation is a pure function of the previous generation
(`next_generation` reads only `grid`), and a cell is alive in the output iff
it was alive with 2 or 3 alive neighbors, or dead with exactly 3 (B3/S23);
every other combination yields a dead cell. -/
theorem C1_transition_rule (grid : Grid) (x y : Nat)
    (hx : x < grid_width grid) (hy : y < grid_height grid) :
    cell_at (next_generation grid) x y = true ↔
      ((cell_at grid x y = true ∧
          (alive_neighbors grid (x : Int) (y : Int) = 2 ∨
           alive_neighbors grid (x : Int) (y : Int) = 3)) ∨
       (cell_at grid x y = false ∧ alive_neighbors grid (x : Int) (y : Int) = 3)) := by
  rw [cell_at_next_generation grid hx hy]
  unfold next_cell
  cases h : cell_at grid x y <;> simp <;> omega

theorem C1_transition_rule_witness :
    cell_at (next_generation [[true, true], [true, false]]) 1 1 = true ↔
      ((cell_at [[true, true], [true, false]] 1 1 = true ∧
          (alive_neighbors [[true, true], [true, false]] (1 : Int) (1 : Int) = 2 ∨
           alive_neighbors [[true, true], [true, false]] (1 : Int) (1 : Int) = 3)) ∨
       (cell_at [[true, true], [true, false]] 1 1 = false ∧
          alive_neighbors [[true, true], [true, false]] (1 : Int) (1 : Int) = 3)) :=
  C1_transition_rule [[true, true], [true, false]] 1 1 (by decide) (by decide)

/-- C8: the transition preserves the grid dimensions and the rectangular
shape invariant. -/
theorem C8_dimensions_preserved (grid : Grid) (hrect : rectangular grid)
    (hw : 0 < grid_width grid) (hh : 0 < grid_height grid) :
    grid_height (next_generation grid) = grid_height grid ∧
      ∀ r ∈ next_generation grid, r.length = grid_width grid := by
  constructor
  · simp [next_generation, grid_height]
  · intro r hr
    simp only [next_generation, List.mem_map, List.mem_range] at hr
    obtain ⟨y, -, rfl⟩ := hr
    simp

theorem C8_dimensions_preserved_witness :
    grid_height (next_generation [[true]]) = grid_height [[true]] ∧
      ∀ r ∈ next_generation [[true]], r.length = grid_width [[true]] :=
  C8_dimensions_preserved [[true]] (by decide) (by decide) (by decide)

theorem foldl_row_count (row : List Bool) (w : Nat) (hw : row.length = w) :
    ∀ acc : Nat,
      (List.range w).foldl
        (fun a x => if row.getD x false then a + 1 else a) acc
      = acc + row.countP (fun c => c) := by
  subst hw
  induction row with
  | nil => intro acc; simp
  | cons b t ih =>
    intro acc
    simp only [List.length_cons, List.range_succ_eq_map, List.foldl_cons,
      List.foldl_map, List.getD_cons_zero, List.getD_cons_succ, List.countP_cons, ih]
    cases b <;> simp <;> omega

theorem foldl_grid_count (w : Nat) :
    ∀ (rows : List (List Bool)), (∀ r ∈ rows, r.length = w) → ∀ acc : Nat,
      (List.range rows.length).foldl
        (fun acc y => (List.range w).foldl
          (fun a x => if (rows.getD y []).getD x false then a + 1 else a) acc) acc
      = acc + (rows.map fun r => r.countP fun c => c).sum := by
  intro rows
  induction rows with
  | nil => intro _ acc; simp
  | cons r t ih =>
    intro hw acc
    have hr : r.length = w := hw r (by simp)
    simp only [List.length_cons, List.range_succ_eq_map, List.foldl_cons,
      List.foldl_map, List.getD_cons_zero, List.getD_cons_succ, List.map_cons,
      List.sum_cons]
    rw [foldl_row_count r w hr acc, ih (fun s hs => hw s (by simp [hs])) _]
    omega

/-- The count the tick loop accumulates equals the total alive-cell count of
the grid it iterates over, for rectangular grids. -/
theorem tick_alive_count_eq (grid : Grid) (hrect : rectangular grid) :
    tick_alive_count grid = count_alive_total grid := by
  have := foldl_grid_count (grid_width grid) grid hrect 0
  simpa [tick_alive_count, cell_at, grid_height, count_alive_total] using this

/-- C2: the simulation loop exits the process (with code 0) iff the alive-cell
count of the generation that was just rendered is zero; the count is taken on
the pre-transition grid, and otherwise the grid is replaced by the next
generation. -/
theorem C2_exit_on_extinction (grid : Grid) (hrect : rectangular grid) :
    (loop_step grid = none ↔ count_alive_total grid = 0) ∧
      (∀ g, loop_step grid = some g → g = next_generation grid) := by
  unfold loop_step
  rw [tick_alive_count_eq grid hrect]
  constructor
  · split_ifs with h <;> simp [h]
  · intro g hg
    split_ifs at hg
    exact (Option.some_inj.mp hg).symm

theorem C2_exit_on_extinction_witness :
    (loop_step [[true]] = none ↔ count_alive_total [[true]] = 0) ∧
      (∀ g, loop_step [[true]] = some g → g = next_generation [[true]]) :=
  C2_exit_on_extinction [[true]] (by decide)

/-- C3: `alive_neighbors` examines exactly the 8 offsets of the spec, skips
any candidate coordinate that is negative or at least the width (resp.
height) as if dead, and returns the number of in-bounds alive neighbors,
which is at most 8. -/
theorem C3_neighbor_count_spec (grid : Grid) (hne : grid ≠ [])
    (hrect : rectangular grid) (x y : Nat)
    (hx : x < grid_width grid) (hy : y < grid_height grid) :
    alive_neighbors grid (x : Int) (y : Int)
      = ([(-1, -1), (0, -1), (1, -1), (1, 0), (1, 1), (0, 1), (-1, 1), (-1, 0)]
          : List (Int × Int)).countP
          (fun o => decide (neighbor_live grid (grid_width grid)
            (grid_height grid) (x : Int) (y : Int) o))
      ∧ alive_neighbors grid (x : Int) (y : Int) ≤ 8 := by
  have h := alive_neighbors_eq_countP grid (x : Int) (y : Int)
  refine ⟨h, ?_⟩
  rw [h]
  calc (OFFSETS.countP _) ≤ OFFSETS.length := List.countP_le_length _
  _ = 8 := rfl

theorem C3_neighbor_count_spec_witness :
    alive_neighbors [[true, true], [true, false]] (0 : Int) (0 : Int)
      = ([(-1, -1), (0, -1), (1, -1), (1, 0), (1, 1), (0, 1), (-1, 1), (-1, 0)]
          : List (Int × Int)).countP
          (fun o => decide (neighbor_live [[true, true], [true, false]]
            (grid_width [[true, true], [true, false]])
            (grid_height [[true, true], [true, false]]) (0 : Int) (0 : Int) o))
      ∧ alive_neighbors [[true, true], [true, false]] (0 : Int) (0 : Int) ≤ 8 :=
  C3_neighbor_count_spec [[true, true], [true, false]] (by decide) (by decide)
    0 0 (by decide) (by decide)

set_option maxHeartbeats 1600000 in
/-- C4: within a rectangular grid every read `alive_neighbors` performs is in
bounds (the indexing panic is unreachable); the corner `(0,0)` has at most 3
candidate neighbors surviving the bounds checks, and any edge cell at most 5. -/
theorem C4_accesses_in_bounds (grid : Grid) (hne : grid ≠ [])
    (hrect : rectangular grid) (x y : Nat)
    (hx : x < grid_width grid) (hy : y < grid_height grid) :
    (∀ o ∈ OFFSETS,
        candidate_ok (grid_width grid) (grid_height grid) (x : Int) (y : Int) o →
          ((y : Int) + o.2).toNat < grid.length ∧
            ((x : Int) + o.1).toNat < (grid.getD ((y : Int) + o.2).toNat []).length) ∧
      (x = 0 ∧ y = 0 →
        candidate_count (grid_width grid) (grid_height grid) 0 0 ≤ 3) ∧
      ((x = 0 ∨ x + 1 = grid_width grid ∨ y = 0 ∨ y + 1 = grid_height grid) →
        candidate_count (grid_width grid) (grid_height grid) (x : Int) (y : Int) ≤ 5) := by
  refine ⟨?_, ?_, ?_⟩
  · intro o _ hok
    obtain ⟨h1, h2, h3, h4⟩ := hok
    have hlen : ((y : Int) + o.2).toNat < grid.length := h4
    refine ⟨hlen, ?_⟩
    rw [List.getD_eq_getElem grid [] hlen]
    rw [hrect _ (grid.getElem_mem hlen)]
    exact h3
  · rintro ⟨rfl, rfl⟩
    simp only [candidate_count, OFFSETS, candidate_ok, List.countP_cons,
      List.countP_nil, decide_eq_true_eq]
    norm_num
    split_ifs <;> omega
  · intro hedge
    simp only [candidate_count, OFFSETS, candidate_ok, List.countP_cons,
      List.countP_nil, decide_eq_true_eq]
    norm_num
    rcases hedge with h | h | h | h <;> split_ifs <;> omega

theorem C4_accesses_in_bounds_witness :
    (∀ o ∈ OFFSETS,
        candidate_ok (grid_width [[true, true], [true, false]])
          (grid_height [[true, true], [true, false]]) (0 : Int) (0 : Int) o →
          ((0 : Int) + o.2).toNat < ([[true, true], [true, false]] : Grid).length ∧
            ((0 : Int) + o.1).toNat <
              (([[true, true], [true, false]] : Grid).getD
                ((0 : Int) + o.2).toNat []).length) ∧
      ((0 : Nat) = 0 ∧ (0 : Nat) = 0 →
        candidate_count (grid_width [[true, true], [true, false]])
          (grid_height [[true, true], [true, false]]) 0 0 ≤ 3) ∧
      ((0 : Nat) = 0 ∨ 0 + 1 = grid_width [[true, true], [true, false]] ∨
          (0 : Nat) = 0 ∨ 0 + 1 = grid_height [[true, true], [true, false]] →
        candidate_count (grid_width [[true, true], [true, false]])
          (grid_height [[true, true], [true, false]]) (0 : Int) (0 : Int) ≤ 5) :=
  C4_accesses_in_bounds [[true, true], [true, false]] (by decide) (by decide)
    0 0 (by decide) (by decide)

/-- One row of `random_configuration`: for each cell, if the RNG draw for
that cell (`rng.gen_bool(chance)`) comes up true, set the cell alive,
otherwise leave it as it was.  `draws` is the oracle of boolean draws and
`k` the index of the next draw to consume. -/
def random_configuration_row (draws : Nat → Bool) : List Bool → Nat → List Bool
  | [], _ => []
  | c :: cs, k => (if draws k then true else c) :: random_configuration_row draws cs (k + 1)

/-- Model of `fn random_configuration`: the grid after the double loop, with
the RNG modelled as the oracle `draws` consumed one draw per cell in
iteration order. -/
def random_configuration (grid : Grid) (draws : Nat → Bool) : Grid :=
  go grid 0
where
  go : Grid → Nat → Grid
  | [], _ => []
  | r :: rs, k => random_configuration_row draws r k :: go rs (k + r.length)

theorem random_configuration_row_cases (draws : Nat → Bool) :
    ∀ (row : List Bool) (k x : Nat),
      ((random_configuration_row draws row k).getD x false = row.getD x false ∨
        (random_configuration_row draws row k).getD x false = true) ∧
      (row.getD x false = true →
        (random_configuration_row draws row k).getD x false = true) := by
  intro row
  induction row with
  | nil => intro k x; simp [random_configuration_row]
  | cons c cs ih =>
    intro k x
    cases x with
    | zero =>
      simp only [random_configuration_row, List.getD_cons_zero]
      split_ifs with h <;> simp
    | succ x =>
      simp only [random_configuration_row, List.getD_cons_succ]
      exact ih (k + 1) x

theorem random_configuration_go_cases (draws : Nat → Bool) :
    ∀ (rows : Grid) (k x y : Nat),
      ((cell_at (random_configuration.go draws rows k) x y = cell_at rows x y) ∨
        cell_at (random_configuration.go draws rows k) x y = true) ∧
      (cell_at rows x y = true →
        cell_at (random_configuration.go draws rows k) x y = true) := by
  intro rows
  induction rows with
  | nil => intro k x y; simp [random_configuration.go]
  | cons r rs ih =>
    intro k x y
    cases y with
    | zero =>
      simp only [random_configuration.go, cell_at, List.getD_cons_zero]
      exact random_configuration_row_cases draws r k x
    | succ y =>
      simp only [random_configuration.go, cell_at, List.getD_cons_succ]
      exact ih (k + r.length) x y

/-- C9: `random_configuration` only ever sets cells to alive: for every
outcome of the random draws, every cell is either left at its prior value or
set alive, and every cell that was alive before is still alive after. -/
theorem C9_random_configuration_monotone (grid : Grid) (draws : Nat → Bool)
    (x y : Nat) :
    ((cell_at (random_configuration grid draws) x y = cell_at grid x y) ∨
      cell_at (random_configuration grid draws) x y = true) ∧
    (cell_at grid x y = true →
      cell_at (random_configuration grid draws) x y = true) :=
  random_configuration_go_cases draws grid 0 x y

/-- A single checked byte store `frame[i] = v` (Rust panics when `i` is out
of range; `none` models the panic). -/
def write_byte (frame : List Nat) (i v : Nat) : Option (List Nat) :=
  if i < frame.length then some (frame.set i v) else none

/-- The body of the inner loop of `fill_rect`: the four stores
`frame[idx+0..3] = (r, g, b, 0xFF)` with `idx = (y * buffer_width + x) * 4`. -/
def write_pixel (frame : List Nat) (bw x y : Nat) (c : Rgb) : Option (List Nat) :=
  (write_byte frame ((y * bw + x) * 4) c.r).bind fun f1 =>
  (write_byte f1 ((y * bw + x) * 4 + 1) c.g).bind fun f2 =>
  (write_byte f2 ((y * bw + x) * 4 + 2) c.b).bind fun f3 =>
  write_byte f3 ((y * bw + x) * 4 + 3) 255

/-- The inner loop `for x in coords.x..coords.x + w` of `fill_rect`;
the third argument is the current `x`, the fourth the remaining width. -/
def fill_row (bw y : Nat) (c : Rgb) : List Nat → Nat → Nat → Option (List Nat)
  | frame, _, 0 => some frame
  | frame, x, w + 1 =>
    (write_pixel frame bw x y c).bind fun f => fill_row bw y c f (x + 1) w

/-- The outer loop `for y in coords.y..coords.y + h` of `fill_rect`. -/
def fill_rows (bw : Nat) (c : Rgb) (x0 w : Nat) :
    List Nat → Nat → Nat → Option (List Nat)
  | frame, _, 0 => some frame
  | frame, y, h + 1 =>
    (fill_row bw y c frame x0 w).bind fun f => fill_rows bw c x0 w f (y + 1) h

/-- Draw a filled rectangle in the pixel buffer (`fn fill_rect`). -/
def fill_rect (frame : List Nat) (buffer_width : Nat) (coords : PixelCoords)
    (w h : Nat) (rgb : Rgb) : Option (List Nat) :=
  fill_rows buffer_width rgb coords.x w frame coords.y h

/-- Draw a filled cell in the pixel buffer (`fn fill_cell`). -/
def fill_cell (frame : List Nat) (buffer_width : Nat) (coords : GridCoords)
    (rgb : Rgb) : Option (List Nat) :=
  fill_rect frame buffer_width
    ⟨coords.x * PIXELS_PER_CELL, coords.y * PIXELS_PER_CELL⟩
    PIXELS_PER_CELL PIXELS_PER_CELL rgb

/-- The byte a filled pixel holds at channel `k` (0 = red, 1 = green,
2 = blue, 3 = alpha 255). -/
def chan (c : Rgb) (k : Nat) : Nat :=
  if k = 0 then c.r else if k = 1 then c.g else if k = 2 then c.b else 255

theorem getD_set_eq (l : List Nat) (i v : Nat) (h : i < l.length) :
    (l.set i v).getD i 0 = v := by
  simp [List.getD_eq_getElem?_getD, List.getElem?_set_eq_of_lt v h]

theorem getD_set_ne (l : List Nat) {i j : Nat} (v : Nat) (h : i ≠ j) :
    (l.set i v).getD j 0 = l.getD j 0 := by
  simp [List.getD_eq_getElem?_getD, List.getElem?_set_ne h]

theorem write_byte_spec (frame : List Nat) (i v : Nat) (h : i < frame.length) :
    ∃ f, write_byte frame i v = some f ∧ f.length = frame.length ∧
      f.getD i 0 = v ∧ ∀ j, j ≠ i → f.getD j 0 = frame.getD j 0 := by
  refine ⟨frame.set i v, by simp [write_byte, h], by simp, getD_set_eq frame i v h, ?_⟩
  intro j hj
  exact getD_set_ne frame v (Ne.symm hj)

theorem write_pixel_spec (frame : List Nat) (bw x y : Nat) (c : Rgb)
    (h : (y * bw + x) * 4 + 3 < frame.length) :
    ∃ f, write_pixel frame bw x y c = some f ∧ f.length = frame.length ∧
      (∀ i, (y * bw + x) * 4 ≤ i → i ≤ (y * bw + x) * 4 + 3 →
        f.getD i 0 = chan c (i - (y * bw + x) * 4)) ∧
      (∀ i, (i < (y * bw + x) * 4 ∨ (y * bw + x) * 4 + 3 < i) →
        f.getD i 0 = frame.getD i 0) := by
  obtain ⟨f1, he1, hl1, hg1, hn1⟩ :=
    write_byte_spec frame ((y * bw + x) * 4) c.r (by omega)
  obtain ⟨f2, he2, hl2, hg2, hn2⟩ :=
    write_byte_spec f1 ((y * bw + x) * 4 + 1) c.g (by omega)
  obtain ⟨f3, he3, hl3, hg3, hn3⟩ :=
    write_byte_spec f2 ((y * bw + x) * 4 + 2) c.b (by omega)
  obtain ⟨f4, he4, hl4, hg4, hn4⟩ :=
    write_byte_spec f3 ((y * bw + x) * 4 + 3) 255 (by omega)
  refine ⟨f4, ?_, by omega, ?_, ?_⟩
  · simp [write_pixel, he1, he2, he3, he4]
  · intro i hlo hhi
    rcases show i = (y * bw + x) * 4 ∨ i = (y * bw + x) * 4 + 1 ∨
        i = (y * bw + x) * 4 + 2 ∨ i = (y * bw + x) * 4 + 3 by omega with
      rfl | rfl | rfl | rfl
    · rw [hn4 _ (by omega), hn3 _ (by omega), hn2 _ (by omega), hg1]
      simp [chan]
    · rw [hn4 _ (by omega), hn3 _ (by omega), hg2]
      simp [chan]
    · rw [hn4 _ (by omega), hg3]
      simp [chan]
    · rw [hg4]
      simp [chan]
  · intro i hi
    rw [hn4 _ (by omega), hn3 _ (by omega), hn2 _ (by omega), hn1 _ (by omega)]

theorem fill_row_spec (bw y : Nat) (c : Rgb) :
    ∀ (w : Nat) (frame : List Nat) (x : Nat),
      (y * bw + x + w) * 4 ≤ frame.length →
      ∃ f, fill_row bw y c frame x w = some f ∧ f.length = frame.length ∧
        (∀ i, (y * bw + x) * 4 ≤ i → i < (y * bw + x + w) * 4 →
          f.getD i 0 = chan c (i % 4)) ∧
        (∀ i, (i < (y * bw + x) * 4 ∨ (y * bw + x + w) * 4 ≤ i) →
          f.getD i 0 = frame.getD i 0) := by
  intro w
  induction w with
  | zero =>
    intro frame x _
    exact ⟨frame, rfl, rfl, fun i h1 h2 => by omega, fun i _ => rfl⟩
  | succ w ih =>
    intro frame x hlen
    obtain ⟨f1, he1, hl1, hin1, hout1⟩ :=
      write_pixel_spec frame bw x y c (by omega)
    obtain ⟨f, he, hl, hin, hout⟩ := ih f1 (x + 1) (by omega)
    refine ⟨f, ?_, by omega, ?_, ?_⟩
    · simp [fill_row, he1, he]
    · intro i h1 h2
      by_cases hc : i < (y * bw + x + 1) * 4
      · rw [hout i (by omega)]
        have h3 : i - (y * bw + x) * 4 = i % 4 := by omega
        rw [hin1 i (by omega) (by omega), h3]
      · exact hin i (by omega) (by omega)
    · intro i hi
      rw [hout i (by omega), hout1 i (by omega)]

theorem fill_rows_spec (bw : Nat) (c : Rgb) (x0 w bh : Nat) (hxw : x0 + w ≤ bw) :
    ∀ (h : Nat) (frame : List Nat) (y : Nat),
      y + h ≤ bh → frame.length = bw * bh * 4 →
      ∃ f, fill_rows bw c x0 w frame y h = some f ∧ f.length = frame.length ∧
        (∀ yy i, y ≤ yy → yy < y + h → (yy * bw + x0) * 4 ≤ i →
          i < (yy * bw + x0 + w) * 4 → f.getD i 0 = chan c (i % 4)) ∧
        (∀ i, (∀ yy, y ≤ yy → yy < y + h →
            i < (yy * bw + x0) * 4 ∨ (yy * bw + x0 + w) * 4 ≤ i) →
          f.getD i 0 = frame.getD i 0) := by
  intro h
  induction h with
  | zero =>
    intro frame y _ _
    exact ⟨frame, rfl, rfl, fun yy i h1 h2 => by omega, fun i _ => rfl⟩
  | succ h ih =>
    intro frame y hbh hlen
    have hcomm : bh * bw = bw * bh := Nat.mul_comm bh bw
    have hrow : y * bw + bw ≤ bh * bw :=
      le_trans (le_of_eq (Nat.succ_mul y bw).symm)
        (Nat.mul_le_mul_right bw (by omega))
    obtain ⟨f1, he1, hl1, hin1, hout1⟩ :=
      fill_row_spec bw y c w frame x0 (by omega)
    obtain ⟨f, he, hl, hin, hout⟩ := ih f1 (y + 1) (by omega) (by omega)
    refine ⟨f, ?_, by omega, ?_, ?_⟩
    · simp [fill_rows, he1, he]
    · intro yy i h1 h2 h3 h4
      by_cases hc : yy = y
      · subst hc
        have hlater : ∀ yy2, yy + 1 ≤ yy2 → yy2 < yy + 1 + h →
            i < (yy2 * bw + x0) * 4 ∨ (yy2 * bw + x0 + w) * 4 ≤ i := by
          intro yy2 h5 h6
          have hstep : yy * bw + bw ≤ yy2 * bw :=
            le_trans (le_of_eq (Nat.succ_mul yy bw).symm)
              (Nat.mul_le_mul_right bw (by omega))
          omega
        rw [hout i hlater]
        exact hin1 i h3 h4
      · exact hin yy i (by omega) (by omega) h3 h4
    · intro i hfar
      rw [hout i (fun yy h5 h6 => hfar yy (by omega) (by omega)),
        hout1 i (hfar y (by omega) (by omega))]

/-- C6: for an in-bounds rectangle, `fill_rect` writes exactly the `w*h`
pixels of the rectangle — each written pixel holding the color's three
channels followed by alpha 255 at byte offset `(y * bufferWidth + x) * 4` —
and leaves every byte outside the rectangle's pixels unchanged. -/
theorem C6_fill_rect_frame_effect (frame : List Nat) (bw bh x0 y0 w h : Nat)
    (c : Rgb) (hxw : x0 + w ≤ bw) (hyh : y0 + h ≤ bh)
    (hlen : frame.length = bw * bh * 4) :
    ∃ f, fill_rect frame bw ⟨x0, y0⟩ w h c = some f ∧
      f.length = frame.length ∧
      (∀ x y, x0 ≤ x → x < x0 + w → y0 ≤ y → y < y0 + h →
        f.getD ((y * bw + x) * 4) 0 = c.r ∧
        f.getD ((y * bw + x) * 4 + 1) 0 = c.g ∧
        f.getD ((y * bw + x) * 4 + 2) 0 = c.b ∧
        f.getD ((y * bw + x) * 4 + 3) 0 = 255) ∧
      (∀ i, i < frame.length →
        (∀ x y, x0 ≤ x → x < x0 + w → y0 ≤ y → y < y0 + h →
          i < (y * bw + x) * 4 ∨ (y * bw + x) * 4 + 3 < i) →
        f.getD i 0 = frame.getD i 0) := by
  obtain ⟨f, he, hl, hin, hout⟩ :=
    fill_rows_spec bw c x0 w bh hxw h frame y0 hyh hlen
  refine ⟨f, he, hl, ?_, ?_⟩
  · intro x y hx1 hx2 hy1 hy2
    refine ⟨?_, ?_, ?_, ?_⟩
    · rw [hin y ((y * bw + x) * 4) (by omega) (by omega) (by omega) (by omega)]
      have h4 : ((y * bw + x) * 4) % 4 = 0 := by omega
      rw [h4]; simp [chan]
    · rw [hin y ((y * bw + x) * 4 + 1) (by omega) (by omega) (by omega) (by omega)]
      have h4 : ((y * bw + x) * 4 + 1) % 4 = 1 := by omega
      rw [h4]; simp [chan]
    · rw [hin y ((y * bw + x) * 4 + 2) (by omega) (by omega) (by omega) (by omega)]
      have h4 : ((y * bw + x) * 4 + 2) % 4 = 2 := by omega
      rw [h4]; simp [chan]
    · rw [hin y ((y * bw + x) * 4 + 3) (by omega) (by omega) (by omega) (by omega)]
      have h4 : ((y * bw + x) * 4 + 3) % 4 = 3 := by omega
      rw [h4]; simp [chan]
  · intro i _ hfar
    refine hout i ?_
    intro yy h1 h2
    by_contra hcon
    push_neg at hcon
    have hx := hfar (i / 4 - yy * bw) yy (by omega) (by omega) h1 h2
    omega

theorem C6_fill_rect_frame_effect_witness :
    ∃ f, fill_rect (List.replicate 16 7) 2 ⟨0, 0⟩ 1 1 ⟨1, 2, 3⟩ = some f ∧
      f.length = (List.replicate 16 7 : List Nat).length ∧
      (∀ x y, 0 ≤ x → x < 0 + 1 → 0 ≤ y → y < 0 + 1 →
        f.getD ((y * 2 + x) * 4) 0 = (1 : Nat) ∧
        f.getD ((y * 2 + x) * 4 + 1) 0 = (2 : Nat) ∧
        f.getD ((y * 2 + x) * 4 + 2) 0 = (3 : Nat) ∧
        f.getD ((y * 2 + x) * 4 + 3) 0 = 255) ∧
      (∀ i, i < (List.replicate 16 7 : List Nat).length →
        (∀ x y, 0 ≤ x → x < 0 + 1 → 0 ≤ y → y < 0 + 1 →
          i < (y * 2 + x) * 4 ∨ (y * 2 + x) * 4 + 3 < i) →
        f.getD i 0 = (List.replicate 16 7 : List Nat).getD i 0) :=
  C6_fill_rect_frame_effect (List.replicate 16 7) 2 2 0 0 1 1 ⟨1, 2, 3⟩
    (by decide) (by decide) (by decide)

/-- C5 counterexample: a call whose rectangle does NOT lie within the
buffer's bounds (width 2 buffer, rectangle spanning columns 1..2) that
nevertheless completes without an index-out-of-range error, because the
overflowing pixel's byte offset wraps into the next row and stays inside
the buffer. -/
theorem C5_oob_rect_no_panic :
    ¬ (1 + 2 ≤ 2) ∧
      (fill_rect (List.replicate 16 0) 2 ⟨1, 0⟩ 2 1 ⟨9, 9, 9⟩).isSome = true := by
  constructor
  · omega
  · decide

/-- C5 (amended): under the precondition that the rectangle lies entirely
within the buffer (and the buffer has the advertised `bw * bh * 4` bytes),
`fill_rect` never hits an index-out-of-range error; violating the
precondition does not necessarily fail (see the counterexample). -/
theorem C5_in_bounds_no_panic (frame : List Nat) (bw bh x0 y0 w h : Nat)
    (c : Rgb) (hxw : x0 + w ≤ bw) (hyh : y0 + h ≤ bh)
    (hlen : frame.length = bw * bh * 4) :
    (fill_rect frame bw ⟨x0, y0⟩ w h c).isSome = true := by
  obtain ⟨f, he, -, -, -⟩ := fill_rows_spec bw c x0 w bh hxw h frame y0 hyh hlen
  simp [fill_rect, he]

theorem C5_in_bounds_no_panic_witness :
    (fill_rect (List.replicate 16 0) 2 ⟨0, 0⟩ 2 2 ⟨9, 9, 9⟩).isSome = true :=
  C5_in_bounds_no_panic (List.replicate 16 0) 2 2 0 0 2 2 ⟨9, 9, 9⟩
    (by decide) (by decide) (by decide)

/-- A rectangular grid described by a cell predicate, as built by
`vec![vec![false; w]; h]` followed by per-cell writes: row `y`, column `x`
holds `f x y`. -/
def mk_grid (w h : Nat) (f : Nat → Nat → Bool) : Grid :=
  (List.range h).map fun y => (List.range w).map fun x => f x y

theorem grid_height_mk (w h : Nat) (f : Nat → Nat → Bool) :
    grid_height (mk_grid w h f) = h := by
  simp [mk_grid, grid_height]

theorem grid_width_mk (w h : Nat) (f : Nat → Nat → Bool) (hh : 0 < h) :
    grid_width (mk_grid w h f) = w := by
  simp [mk_grid, grid_width, List.getD_eq_getElem?_getD, List.getElem?_map,
    List.getElem?_range, hh]

theorem cell_at_mk (w h : Nat) (f : Nat → Nat → Bool) (x y : Nat) :
    cell_at (mk_grid w h f) x y = if x < w ∧ y < h then f x y else false := by
  by_cases hy : y < h
  · by_cases hx : x < w
    · simp [mk_grid, cell_at, List.getD_eq_getElem?_getD, List.getElem?_map,
        List.getElem?_range, hx, hy]
    · rw [if_neg (by omega)]
      have : (List.range w)[x]? = none :=
        List.getElem?_eq_none (by simpa using Nat.le_of_not_lt hx)
      simp [mk_grid, cell_at, List.getD_eq_getElem?_getD, List.getElem?_map,
        List.getElem?_range, hy, this]
  · rw [if_neg (by omega)]
    have : (List.range h)[y]? = none :=
      List.getElem?_eq_none (by simpa using Nat.le_of_not_lt hy)
    simp [mk_grid, cell_at, List.getD_eq_getElem?_getD, List.getElem?_map, this]

theorem countP_congr_here (p q : Int × Int → Bool) :
    ∀ l : List (Int × Int), (∀ a ∈ l, p a = q a) → l.countP p = l.countP q := by
  intro l
  induction l with
  | nil => intro _; rfl
  | cons a t ih =>
    intro hpq
    rw [List.countP_cons, List.countP_cons, hpq a (by simp),
      ih (fun b hb => hpq b (by simp [hb]))]

theorem neighbor_live_mk (w h : Nat) (f : Nat → Nat → Bool) (x y : Int)
    (o : Int × Int) :
    neighbor_live (mk_grid w h f) w h x y o ↔
      candidate_ok w h x y o ∧
        f (x + o.1).toNat (y + o.2).toNat = true := by
  unfold neighbor_live
  refine and_congr_right fun hok => ?_
  have : (List.getD (mk_grid w h f) (y + o.2).toNat []).getD (x + o.1).toNat false
      = cell_at (mk_grid w h f) (x + o.1).toNat (y + o.2).toNat := rfl
  rw [this, cell_at_mk, if_pos ⟨hok.2.2.1, hok.2.2.2⟩]

theorem alive_neighbors_mk (w h : Nat) (f : Nat → Nat → Bool) (hh : 0 < h)
    (x y : Int) :
    alive_neighbors (mk_grid w h f) x y
      = OFFSETS.countP (fun o =>
          decide (candidate_ok w h x y o ∧
            f (x + o.1).toNat (y + o.2).toNat = true)) := by
  rw [alive_neighbors_eq_countP, grid_width_mk w h f hh, grid_height_mk w h f]
  refine countP_congr_here _ _ OFFSETS fun o _ => ?_
  rw [decide_eq_decide]
  exact neighbor_live_mk w h f x y o

theorem mk_grid_congr (w h : Nat) (f g : Nat → Nat → Bool)
    (hfg : ∀ x y, x < w → y < h → f x y = g x y) :
    mk_grid w h f = mk_grid w h g := by
  unfold mk_grid
  refine List.map_congr_left fun y hy => ?_
  refine List.map_congr_left fun x hx => ?_
  exact hfg x y (List.mem_range.mp hx) (List.mem_range.mp hy)

theorem next_generation_mk (w h : Nat) (f : Nat → Nat → Bool) (hh : 0 < h) :
    next_generation (mk_grid w h f)
      = mk_grid w h fun x y =>
          next_cell (f x y)
            (alive_neighbors (mk_grid w h f) (x : Int) (y : Int)) := by
  unfold next_generation
  rw [grid_height_mk w h f, grid_width_mk w h f hh]
  refine List.map_congr_left fun y hy => ?_
  refine List.map_congr_left fun x hx => ?_
  rw [cell_at_mk, if_pos ⟨List.mem_range.mp hx, List.mem_range.mp hy⟩]

/-- A horizontal blinker centered at `(cx, cy)`: live cells exactly at
`(cx-1, cy)`, `(cx, cy)`, `(cx+1, cy)`. -/
def blinkerH (cx cy : Nat) (x y : Nat) : Bool :=
  decide (y = cy ∧ (x + 1 = cx ∨ x = cx ∨ x = cx + 1))

/-- A vertical blinker centered at `(cx, cy)`: live cells exactly at
`(cx, cy-1)`, `(cx, cy)`, `(cx, cy+1)`. -/
def blinkerV (cx cy : Nat) (x y : Nat) : Bool :=
  decide (x = cx ∧ (y + 1 = cy ∨ y = cy ∨ y = cy + 1))

set_option maxHeartbeats 4000000 in
theorem blinker_cell_step_HV (w h cx cy x y : Nat)
    (h1 : 1 ≤ cx) (h2 : cx + 1 < w) (h3 : 1 ≤ cy) (h4 : cy + 1 < h)
    (hx : x < w) (hy : y < h) :
    next_cell (blinkerH cx cy x y)
      (alive_neighbors (mk_grid w h (blinkerH cx cy)) (x : Int) (y : Int))
      = blinkerV cx cy x y := by
  rw [alive_neighbors_mk w h _ (by omega)]
  rw [Bool.eq_iff_iff]
  simp only [OFFSETS, List.countP_cons, List.countP_nil, next_cell,
    Bool.or_eq_true, Bool.and_eq_true, Bool.not_eq_true', decide_eq_true_eq,
    decide_eq_false_iff_not, candidate_ok, blinkerH, blinkerV]
  norm_num
  split_ifs <;> omega

set_option maxHeartbeats 4000000 in
theorem blinker_cell_step_VH (w h cx cy x y : Nat)
    (h1 : 1 ≤ cx) (h2 : cx + 1 < w) (h3 : 1 ≤ cy) (h4 : cy + 1 < h)
    (hx : x < w) (hy : y < h) :
    next_cell (blinkerV cx cy x y)
      (alive_neighbors (mk_grid w h (blinkerV cx cy)) (x : Int) (y : Int))
      = blinkerH cx cy x y := by
  rw [alive_neighbors_mk w h _ (by omega)]
  rw [Bool.eq_iff_iff]
  simp only [OFFSETS, List.countP_cons, List.countP_nil, next_cell,
    Bool.or_eq_true, Bool.and_eq_true, Bool.not_eq_true', decide_eq_true_eq,
    decide_eq_false_iff_not, candidate_ok, blinkerH, blinkerV]
  norm_num
  split_ifs <;> omega

theorem blinker_flip (w h cx cy : Nat)
    (h1 : 1 ≤ cx) (h2 : cx + 1 < w) (h3 : 1 ≤ cy) (h4 : cy + 1 < h) :
    next_generation (mk_grid w h (blinkerH cx cy))
      = mk_grid w h (blinkerV cx cy) := by
  rw [next_generation_mk w h _ (by omega)]
  exact mk_grid_congr w h _ _ fun x y hx hy =>
    blinker_cell_step_HV w h cx cy x y h1 h2 h3 h4 hx hy

theorem blinker_flop (w h cx cy : Nat)
    (h1 : 1 ≤ cx) (h2 : cx + 1 < w) (h3 : 1 ≤ cy) (h4 : cy + 1 < h) :
    next_generation (mk_grid w h (blinkerV cx cy))
      = mk_grid w h (blinkerH cx cy) := by
  rw [next_generation_mk w h _ (by omega)]
  exact mk_grid_congr w h _ _ fun x y hx hy =>
    blinker_cell_step_VH w h cx cy x y h1 h2 h3 h4 hx hy

/-- C7: a blinker (three collinear live cells, all other cells dead) placed
so that its center keeps one cell of margin to every edge has period 2:
applying the transition twice returns exactly the original grid, in both
the horizontal and the vertical orientation. -/
theorem C7_blinker_period_two (w h cx cy : Nat)
    (h1 : 1 ≤ cx) (h2 : cx + 1 < w) (h3 : 1 ≤ cy) (h4 : cy + 1 < h) :
    next_generation (next_generation (mk_grid w h (blinkerH cx cy)))
        = mk_grid w h (blinkerH cx cy) ∧
      next_generation (next_generation (mk_grid w h (blinkerV cx cy)))
        = mk_grid w h (blinkerV cx cy) := by
  constructor
  · rw [blinker_flip w h cx cy h1 h2 h3 h4, blinker_flop w h cx cy h1 h2 h3 h4]
  · rw [blinker_flop w h cx cy h1 h2 h3 h4, blinker_flip w h cx cy h1 h2 h3 h4]

theorem C7_blinker_period_two_witness :
    next_generation (next_generation (mk_grid 4 4 (blinkerH 2 2)))
        = mk_grid 4 4 (blinkerH 2 2) ∧
      next_generation (next_generation (mk_grid 4 4 (blinkerV 2 2)))
        = mk_grid 4 4 (blinkerV 2 2) :=
  C7_blinker_period_two 4 4 2 2 (by decide) (by decide) (by decide) (by decide)

/-- The rendering half of one tick of the loop in `main`: clear the whole
buffer to black with `fill_rect`, then draw every alive cell with
`fill_cell`, taking one color from the color source (`color_gen()`) per
drawn cell.  `none` models an indexing panic during drawing; the
presentation call that follows is an external collaborator and is not
modelled. -/
def tick_render (frame : List Nat) (bw bh : Nat) (grid : Grid)
    (colors : Nat → Rgb) : Option (List Nat) :=
  match fill_rect frame bw PixelCoords.origin bw bh Rgb.BLACK with
  | none => none
  | some f0 =>
    ((List.range (grid_height grid)).foldl (fun st y =>
      (List.range (grid_width grid)).foldl (fun st x =>
        if cell_at grid x y then
          match st with
          | (some f, k) => (fill_cell f bw ⟨x, y⟩ (colors k), k + 1)
          | (none, k) => (none, k + 1)
        else st) st) ((some f0 : Option (List Nat)), 0)).1

/-- One full tick of the loop in `main`: render the current grid, then
decide termination and compute the next generation.  The result carries the
rendered frame and the simulation outcome (`loop_step`). -/
def tick (frame : List Nat) (bw bh : Nat) (grid : Grid)
    (colors : Nat → Rgb) : Option (List Nat × Option Grid) :=
  match tick_render frame bw bh grid colors with
  | none => none
  | some f => some (f, loop_step grid)

/-- C10: the simulation outcome of a tick — the next-generation grid and the
termination decision — depends only on the grid: two completed ticks over
equal grids produce equal simulation outcomes, whatever the color source and
the initial frame buffer contents. -/
theorem C10_sim_independent_of_rendering (grid : Grid) (bw bh : Nat)
    (c1 c2 : Nat → Rgb) (f1 f2 : List Nat) (o1 o2 : List Nat × Option Grid)
    (ht1 : tick f1 bw bh grid c1 = some o1)
    (ht2 : tick f2 bw bh grid c2 = some o2) :
    o1.2 = o2.2 := by
  unfold tick at ht1 ht2
  rcases hr1 : tick_render f1 bw bh grid c1 with _ | fa <;> rw [hr1] at ht1
  · exact absurd ht1 (by simp)
  rcases hr2 : tick_render f2 bw bh grid c2 with _ | fb <;> rw [hr2] at ht2
  · exact absurd ht2 (by simp)
  simp only [Option.some_inj] at ht1 ht2
  rw [← ht1, ← ht2]

theorem C10_sim_independent_of_rendering_witness :
    (([0, 0, 0, 255] : List Nat), (none : Option Grid)).2
      = ((([0, 0, 0, 255] : List Nat), (none : Option Grid))).2 :=
  C10_sim_independent_of_rendering [] 1 1
    (fun _ => Rgb.WHITE) (fun _ => Rgb.BLACK)
    (List.replicate 4 1) (List.replicate 4 2)
    (([0, 0, 0, 255], none)) (([0, 0, 0, 255], none)) (by decide) (by decide)
